import Mathlib

/-!
Shallow embedding of the `rust_voronoi` repository (files `src/cell.rs` and
`src/lloyd.rs`), together with theorems settling the frozen claims about its
specification.

Floating-point values are modelled by `Voronoi.F64`: the IEEE-754 special
values (`+inf`, `-inf`, `NaN`) are represented explicitly and follow the IEEE
propagation rules for the operations the code uses, while finite values are
kept as exact rationals (the claims settled here are insensitive to rounding:
every concrete evaluation below stays within exactly representable values).
Signed zero is not modelled; the zero of the model is IEEE `+0.0`.
-/

namespace Voronoi

/-- Model of a Rust `f64` value: an exact finite rational, an infinity, or NaN. -/
inductive F64 where
  | val : ℚ → F64
  | pinf : F64
  | ninf : F64
  | nan : F64
deriving DecidableEq

/-- Addition, following the IEEE-754 special-value rules; finite plus finite is
exact rational addition. -/
def F64.add : F64 → F64 → F64
  | .nan, _ => .nan
  | _, .nan => .nan
  | .pinf, .ninf => .nan
  | .ninf, .pinf => .nan
  | .pinf, _ => .pinf
  | _, .pinf => .pinf
  | .ninf, _ => .ninf
  | _, .ninf => .ninf
  | .val a, .val b => .val (a + b)

/-- Negation, following the IEEE-754 rules. -/
def F64.neg : F64 → F64
  | .nan => .nan
  | .pinf => .ninf
  | .ninf => .pinf
  | .val a => .val (-a)

/-- Subtraction, `a - b = a + (-b)` (exact in IEEE-754 as well). -/
def F64.sub (a b : F64) : F64 := a.add b.neg

/-- Multiplication, following the IEEE-754 special-value rules; in particular
`0 * inf = NaN`. -/
def F64.mul : F64 → F64 → F64
  | .nan, _ => .nan
  | _, .nan => .nan
  | .pinf, .pinf => .pinf
  | .pinf, .ninf => .ninf
  | .ninf, .pinf => .ninf
  | .ninf, .ninf => .pinf
  | .pinf, .val b => if 0 < b then .pinf else if b < 0 then .ninf else .nan
  | .val a, .pinf => if 0 < a then .pinf else if a < 0 then .ninf else .nan
  | .ninf, .val b => if 0 < b then .ninf else if b < 0 then .pinf else .nan
  | .val a, .ninf => if 0 < a then .ninf else if a < 0 then .pinf else .nan
  | .val a, .val b => .val (a * b)

/-- Division, following the IEEE-754 special-value rules; the model's zero is
IEEE `+0.0`, so `x / 0.0 = sign(x) * inf` for nonzero finite `x` and
`0.0 / 0.0 = NaN`. -/
def F64.div : F64 → F64 → F64
  | .nan, _ => .nan
  | _, .nan => .nan
  | .pinf, .pinf => .nan
  | .pinf, .ninf => .nan
  | .ninf, .pinf => .nan
  | .ninf, .ninf => .nan
  | .pinf, .val b => if 0 ≤ b then .pinf else .ninf
  | .ninf, .val b => if 0 ≤ b then .ninf else .pinf
  | .val _, .pinf => .val 0
  | .val _, .ninf => .val 0
  | .val a, .val b =>
    if b = 0 then (if 0 < a then .pinf else if a < 0 then .ninf else .nan)
    else .val (a / b)

/-- Model of `f64::abs`. -/
def F64.abs : F64 → F64
  | .nan => .nan
  | .pinf => .pinf
  | .ninf => .pinf
  | .val a => .val |a|

/-- Model of the total order `Ord::cmp` of the `ordered_float` crate's
`OrderedFloat<f64>` wrapper (the type of the `x`/`y` fields of `Point`):
NaN compares equal to itself and greater than every other value; all other
values compare in the usual IEEE order. -/
def F64.cmp : F64 → F64 → Ordering
  | .nan, .nan => .eq
  | .nan, _ => .gt
  | _, .nan => .lt
  | .pinf, .pinf => .eq
  | .pinf, _ => .gt
  | _, .pinf => .lt
  | .ninf, .ninf => .eq
  | .ninf, _ => .lt
  | _, .ninf => .gt
  | .val a, .val b => if a < b then .lt else if b < a then .gt else .eq

/-- Model of `f64::partial_cmp`: `none` whenever NaN is involved, the IEEE
order otherwise. -/
def F64.cmpPartial : F64 → F64 → Option Ordering
  | .nan, _ => none
  | _, .nan => none
  | a, b => some (a.cmp b)

/-- Modelled from the spec: the 2D point primitive (`src/point.rs` is not among
the given sources). Per sections 2 and 3 of the spec it is an immutable
coordinate pair with componentwise arithmetic, scalar scaling, and a total
order obtained by wrapping each coordinate in `OrderedFloat`. -/
structure Point where
  x : F64
  y : F64
deriving DecidableEq

/-- Modelled from the spec: componentwise point addition (`Point + Point`). -/
def Point.add (a b : Point) : Point := ⟨a.x.add b.x, a.y.add b.y⟩

/-- Modelled from the spec: scaling a point by an `f64` scalar (`Point * f64`). -/
def Point.smul (a : Point) (s : F64) : Point := ⟨a.x.mul s, a.y.mul s⟩

/-- The `Cell` struct of `src/cell.rs`: a polygon boundary given as an ordered
vertex list. -/
structure Cell where
  boundary : List Point
deriving DecidableEq

/-- The `point_to_line` helper of `src/cell.rs`:
`((l1.x - l0.x) * (p.y - l0.y) - (p.x - l0.x) * (l1.y - l0.y)).partial_cmp(&0.)`. -/
def point_to_line (p l0 l1 : Point) : Option Ordering :=
  F64.cmpPartial
    (((l1.x.sub l0.x).mul (p.y.sub l0.y)).sub ((p.x.sub l0.x).mul (l1.y.sub l0.y)))
    (F64.val 0)

/-- The `TryFrom<Vec<Point>>` impl for `Cell`: fewer than 3 vertices is a
construction error (the `anyhow` error is modelled by its message string). -/
def Cell.tryFrom (boundary : List Point) : Except String Cell :=
  if boundary.length < 3 then
    .error "Not enough points for a contained shape, require 3"
  else
    .ok ⟨boundary⟩

/-- The `Cell::new(boxsize)` constructor: the axis-aligned square starting at
the origin and extending `boxsize` units in the positive x and y directions. -/
def Cell.new (boxsize : F64) : Cell :=
  ⟨[⟨F64.val 0, F64.val 0⟩, ⟨boxsize, F64.val 0⟩, ⟨boxsize, boxsize⟩,
    ⟨F64.val 0, boxsize⟩]⟩

/-- The `Cell::sides` iterator,
`boundary.iter().zip(boundary.iter().cycle().skip(1))`: each vertex paired
with its cyclic successor. -/
def Cell.sides (c : Cell) : List (Point × Point) :=
  c.boundary.zip (c.boundary.rotate 1)

/-- Rust's `Iterator::sum::<f64>()`: a left fold of `+` starting from `0.0`. -/
def sumF (l : List F64) : F64 := l.foldl F64.add (F64.val 0)

/-- The `Cell::area` method: the absolute shoelace sum over `sides()`, halved. -/
def Cell.area (c : Cell) : F64 :=
  F64.div
    (F64.abs (sumF (c.sides.map fun s =>
      (s.2.x.add s.1.x).mul (s.2.y.sub s.1.y))))
    (F64.val 2)

/-- The edge loop of `Cell::contains` in `src/cell.rs`: accumulates signed
crossing counts and exits early on an exactly-on-line point (`true`) or an
incomparable cross product (`false`); at the end it tests the parity of the
accumulator. The match arms reproduce the source exactly: for an upward edge
both `(Equal, Less)` and `(Less, Equal)` count, and for a downward edge both
`(Greater, Equal)` and `(Equal, Greater)` count, i.e. both endpoints of every
edge are y-inclusive. -/
def containsLoop (p : Point) : List (Point × Point) → Int → Bool
  | [], acc => acc % 2 != 0
  | (v0, v1) :: rest, acc =>
    match v0.y.cmp p.y, p.y.cmp v1.y with
    | .lt, .lt | .eq, .lt | .lt, .eq =>
      match point_to_line p v0 v1 with
      | some .lt => containsLoop p rest (acc + 1)
      | some .eq => true
      | some .gt => containsLoop p rest acc
      | none => false
    | .gt, .gt | .gt, .eq | .eq, .gt =>
      match point_to_line p v0 v1 with
      | some .gt => containsLoop p rest (acc - 1)
      | some .eq => true
      | some .lt => containsLoop p rest acc
      | none => false
    | _, _ => containsLoop p rest acc

/-- The `Cell::contains` method: the ray-casting parity test of `src/cell.rs`. -/
def Cell.contains (c : Cell) (p : Point) : Bool :=
  containsLoop p c.sides 0

/-- Claim-side definition, following the words of spec section 4.1: the same
ray-casting loop as `containsLoop` but with the half-open edge convention the
spec describes — for an upward edge the start vertex is inclusive and the end
vertex exclusive (`v0.y <= p.y < v1.y`), symmetrically for a downward edge
(`v0.y > p.y >= v1.y`) — so a crossing at a shared vertex is counted exactly
once regardless of the directions of the two edges meeting there. -/
def containsLoopHalfOpen (p : Point) : List (Point × Point) → Int → Bool
  | [], acc => acc % 2 != 0
  | (v0, v1) :: rest, acc =>
    match v0.y.cmp p.y, p.y.cmp v1.y with
    | .lt, .lt | .eq, .lt =>
      match point_to_line p v0 v1 with
      | some .lt => containsLoopHalfOpen p rest (acc + 1)
      | some .eq => true
      | some .gt => containsLoopHalfOpen p rest acc
      | none => false
    | .gt, .gt | .gt, .eq =>
      match point_to_line p v0 v1 with
      | some .gt => containsLoopHalfOpen p rest (acc - 1)
      | some .eq => true
      | some .lt => containsLoopHalfOpen p rest acc
      | none => false
    | _, _ => containsLoopHalfOpen p rest acc

/-- Claim-side containment test with the half-open convention of the spec. -/
def containsHalfOpen (c : Cell) (p : Point) : Bool :=
  containsLoopHalfOpen p c.sides 0

/-- The `polygon_centroid` function of `src/lloyd.rs`: sums the points (new
point on the left, as in `pt_sum = *pt + pt_sum`) and scales the sum by
`1.0 / (pts.len() as f64)`. -/
def polygon_centroid (pts : List Point) : Point :=
  (pts.foldl (fun acc pt => Point.add pt acc) ⟨F64.val 0, F64.val 0⟩).smul
    ((F64.val 1).div (F64.val pts.length))

/-- Modelled from the spec: the finished DCEL (`src/dcel.rs` is not among the
given sources). The only aspect of it the claims rely on is the face list as
seen through `make_polygons`: per section 3 (one `Face` per `Site`, a `Site`
being an input point tagged with its input index) and section 6
(`make_polygons` returns one closed vertex loop per face), the faces stand in
input-order correspondence with the input sites. -/
structure DCEL where
  facePolygons : List (List Point)

/-- Modelled from the spec: the polygon of one site's Voronoi face. The claims
do not constrain the face geometry, only the face-to-site correspondence, so
the model assigns each site the whole boundary cell (which per section 4.4 is
the correct polygon whenever the site's face sees no event at all, e.g. for a
single-site diagram). -/
def voronoiFacePolygon (_pts : List Point) (boxsize : Cell) (_site : Point) :
    List Point :=
  boxsize.boundary

/-- Modelled from the spec: the `voronoi` sweep driver (`src/voronoi.rs` is
not among the given sources): it returns the finished DCEL, with one face per
input site, in input order. -/
def voronoi (pts : List Point) (boxsize : Cell) : DCEL :=
  ⟨pts.map (voronoiFacePolygon pts boxsize)⟩

/-- Modelled from the spec: `make_polygons` extracts one vertex loop per face
of the finished DCEL. -/
def make_polygons (d : DCEL) : List (List Point) := d.facePolygons

/-- The `lloyd_relaxation` function of `src/lloyd.rs`: one Voronoi run, then
one centroid per extracted face polygon. -/
def lloyd_relaxation (pts : List Point) (boxsize : Cell) : List Point :=
  (make_polygons (voronoi pts boxsize)).map polygon_centroid

/-- Claim-side definition for C6: the componentwise vertex sum scaled by
`1/len`, the arithmetic mean of the vertices. -/
def centroidSpec (pts : List Point) : Point :=
  ⟨(sumF (pts.map Point.x)).mul ((F64.val 1).div (F64.val pts.length)),
   (sumF (pts.map Point.y)).mul ((F64.val 1).div (F64.val pts.length))⟩

/-- Claim-side definition for C7: the shoelace sum written over indices modulo
`n`, `sum over i < n of (x_((i+1)%n) + x_i) * (y_((i+1)%n) - y_i)`, absolute
value halved. -/
def shoelaceSpec (l : List Point) : F64 :=
  F64.div
    (F64.abs (sumF ((List.range l.length).map fun i =>
      ((l.getD ((i + 1) % l.length) ⟨F64.val 0, F64.val 0⟩).x.add
          (l.getD i ⟨F64.val 0, F64.val 0⟩).x).mul
        ((l.getD ((i + 1) % l.length) ⟨F64.val 0, F64.val 0⟩).y.sub
          (l.getD i ⟨F64.val 0, F64.val 0⟩).y))))
    (F64.val 2)

lemma F64.add_comm (a b : F64) : a.add b = b.add a := by
  cases a <;> cases b <;> simp [F64.add] <;> exact Rat.add_comm _ _

lemma foldl_add_components (pts : List Point) (z : Point) :
    pts.foldl (fun acc pt => Point.add pt acc) z =
      ⟨(pts.map Point.x).foldl F64.add z.x,
       (pts.map Point.y).foldl F64.add z.y⟩ := by
  induction pts generalizing z with
  | nil => simp
  | cons p ps ih =>
    rw [List.foldl_cons, ih (Point.add p z)]
    simp only [List.map_cons, List.foldl_cons, Point.add]
    rw [F64.add_comm p.x z.x, F64.add_comm p.y z.y]

lemma sides_eq_range (c : Cell) :
    c.sides = (List.range c.boundary.length).map fun i =>
      (c.boundary.getD i ⟨F64.val 0, F64.val 0⟩,
       c.boundary.getD ((i + 1) % c.boundary.length) ⟨F64.val 0, F64.val 0⟩) := by
  apply List.ext_getElem
  · simp [Cell.sides]
  · intro i h1 h2
    have hb : i < c.boundary.length := by
      simpa [Cell.sides] using h1
    have hpos : 0 < c.boundary.length := Nat.lt_of_le_of_lt (Nat.zero_le i) hb
    have hmod : (i + 1) % c.boundary.length < c.boundary.length :=
      Nat.mod_lt _ hpos
    simp only [Cell.sides, List.getElem_zip, List.getElem_map, List.getElem_range,
      List.getElem_rotate, List.getD_eq_getElem _ _ hb,
      List.getD_eq_getElem _ _ hmod]

lemma F64.sub_nan_left (y : F64) : F64.sub F64.nan y = F64.nan := by
  cases y <;> rfl

lemma F64.sub_nan_right (x : F64) : F64.sub x F64.nan = F64.nan := by
  cases x <;> rfl

lemma F64.mul_nan_left (y : F64) : F64.mul F64.nan y = F64.nan := by
  cases y <;> rfl

lemma F64.mul_nan_right (x : F64) : F64.mul x F64.nan = F64.nan := by
  cases x <;> rfl

lemma point_to_line_nan (p l0 l1 : Point)
    (hp : p.x = F64.nan ∨ p.y = F64.nan) : point_to_line p l0 l1 = none := by
  have hcross :
      (((l1.x.sub l0.x).mul (p.y.sub l0.y)).sub
        ((p.x.sub l0.x).mul (l1.y.sub l0.y))) = F64.nan := by
    rcases hp with hx | hy
    · rw [hx, F64.sub_nan_left, F64.mul_nan_left, F64.sub_nan_right]
    · rw [hy, F64.sub_nan_left, F64.mul_nan_right, F64.sub_nan_left]
  rw [point_to_line, hcross]
  rfl

lemma containsLoop_nan (p : Point) (hp : p.x = F64.nan ∨ p.y = F64.nan)
    (sides : List (Point × Point)) : containsLoop p sides 0 = false := by
  induction sides with
  | nil => rfl
  | cons s rest ih =>
    obtain ⟨v0, v1⟩ := s
    have hnone := point_to_line_nan p v0 v1 hp
    rcases hc0 : v0.y.cmp p.y <;> rcases hc1 : p.y.cmp v1.y <;>
      simp [containsLoop, hc0, hc1, hnone, ih]

/-- Supplementary to C3: the NaN half of the claim does hold in general — a
query point with a NaN coordinate is never reported contained (every edge
either fails its y-span test or makes the cross product NaN, so the loop
skips it or exits with false). -/
theorem contains_nan_false (c : Cell) (p : Point)
    (hp : p.x = F64.nan ∨ p.y = F64.nan) : c.contains p = false :=
  containsLoop_nan p hp c.sides

/-- Claim C1: for a Cell whose boundary is a simple polygon and a query point
strictly inside it whose y-coordinate equals a vertex's y-coordinate, the
claim says the crossing at that vertex is counted exactly once (half-open
convention) and `contains` returns true. The code instead treats both
endpoints of every edge as y-inclusive, counting such a crossing twice: on
the convex quadrilateral `(0,0), (2,2), (0,4), (-2,2)` the interior point
`(0,2)` (not on any edge line: every cross product test below is nonzero) is
reported NOT contained, while the half-open loop written from the spec's words
reports it contained. -/
theorem claim1_vertex_crossing_double_count :
    containsHalfOpen
        ⟨[⟨F64.val 0, F64.val 0⟩, ⟨F64.val 2, F64.val 2⟩, ⟨F64.val 0, F64.val 4⟩,
          ⟨F64.val (-2), F64.val 2⟩]⟩ ⟨F64.val 0, F64.val 2⟩ = true ∧
      ((Cell.sides
            ⟨[⟨F64.val 0, F64.val 0⟩, ⟨F64.val 2, F64.val 2⟩, ⟨F64.val 0, F64.val 4⟩,
              ⟨F64.val (-2), F64.val 2⟩]⟩).all fun s =>
        point_to_line ⟨F64.val 0, F64.val 2⟩ s.1 s.2 != some .eq) = true ∧
      Cell.contains
        ⟨[⟨F64.val 0, F64.val 0⟩, ⟨F64.val 2, F64.val 2⟩, ⟨F64.val 0, F64.val 4⟩,
          ⟨F64.val (-2), F64.val 2⟩]⟩ ⟨F64.val 0, F64.val 2⟩ = false :=
  ⟨by with_unfolding_all rfl, by with_unfolding_all rfl, by with_unfolding_all rfl⟩

/-- Claim C2: the claim says every point exactly on the boundary is reported
contained. On the simple hexagon `(0,0), (8,0), (8,-6), (-8,-6), (-9,6),
(0,6)` the point `(4,0)` lies on the boundary edge from `(0,0)` to `(8,0)`
(the first side; the source's own `point_to_line` judges it exactly on the
line, strictly between the endpoint x-coordinates), yet `contains` returns
false: the horizontal edge is skipped by the `(Equal, Equal)` match arm, so
the exact on-line test never runs for it, and the remaining crossing parity
comes out even. -/
theorem claim2_boundary_point_missed :
    (Cell.sides
        ⟨[⟨F64.val 0, F64.val 0⟩, ⟨F64.val 8, F64.val 0⟩, ⟨F64.val 8, F64.val (-6)⟩,
          ⟨F64.val (-8), F64.val (-6)⟩, ⟨F64.val (-9), F64.val 6⟩,
          ⟨F64.val 0, F64.val 6⟩]⟩).head? =
      some (⟨F64.val 0, F64.val 0⟩, ⟨F64.val 8, F64.val 0⟩) ∧
    point_to_line ⟨F64.val 4, F64.val 0⟩ ⟨F64.val 0, F64.val 0⟩ ⟨F64.val 8, F64.val 0⟩ =
      some .eq ∧
    F64.cmp (F64.val 0) (F64.val 4) = .lt ∧
    F64.cmp (F64.val 4) (F64.val 8) = .lt ∧
    Cell.contains
      ⟨[⟨F64.val 0, F64.val 0⟩, ⟨F64.val 8, F64.val 0⟩, ⟨F64.val 8, F64.val (-6)⟩,
        ⟨F64.val (-8), F64.val (-6)⟩, ⟨F64.val (-9), F64.val 6⟩,
        ⟨F64.val 0, F64.val 6⟩]⟩ ⟨F64.val 4, F64.val 0⟩ = false :=
  ⟨by with_unfolding_all rfl, by with_unfolding_all rfl, by with_unfolding_all rfl,
   by with_unfolding_all rfl, by with_unfolding_all rfl⟩

/-- Claim C3: the claim (and the code's own comments) say a query point with a
non-finite coordinate is reported as not contained. On the simple
quadrilateral `(0,0), (2,2), (0,5), (-3,0)` the point `(+inf, 2)` is reported
CONTAINED: every spanning edge's cross product is +-inf rather than NaN, and
the upward passage through the vertex `(2,2)` is counted twice, leaving an odd
accumulator. -/
theorem claim3_infinite_point_contained :
    Cell.contains
      ⟨[⟨F64.val 0, F64.val 0⟩, ⟨F64.val 2, F64.val 2⟩, ⟨F64.val 0, F64.val 5⟩,
        ⟨F64.val (-3), F64.val 0⟩]⟩ ⟨F64.pinf, F64.val 2⟩ = true := by
  with_unfolding_all rfl

/-- Claim C4: constructing a `Cell` from an explicit vertex sequence fails
exactly when the sequence has fewer than 3 points, and otherwise succeeds with
exactly that vertex sequence as the boundary. -/
theorem claim4_tryFrom_min_three (pts : List Point) :
    (Cell.tryFrom pts = Except.ok ⟨pts⟩ ↔ 3 ≤ pts.length) ∧
    ((∃ e, Cell.tryFrom pts = Except.error e) ↔ pts.length < 3) ∧
    ∀ c, Cell.tryFrom pts = Except.ok c → c.boundary = pts := by
  unfold Cell.tryFrom
  by_cases h : pts.length < 3
  · rw [if_pos h]
    refine ⟨⟨fun hok => ?_, fun h3 => absurd h3 (by omega)⟩,
      ⟨fun _ => h, fun _ => ⟨_, rfl⟩⟩, fun c hc => ?_⟩
    · cases hok
    · cases hc
  · rw [if_neg h]
    refine ⟨⟨fun _ => by omega, fun _ => rfl⟩,
      ⟨fun he => ?_, fun h3 => absurd h3 h⟩, fun c hc => ?_⟩
    · obtain ⟨e, he⟩ := he
      cases he
    · cases hc
      rfl

/-- Witness for C4 at a concrete input: a 3-point sequence is accepted and
kept verbatim as the boundary. -/
theorem claim4_witness :
    Cell.tryFrom [⟨F64.val 0, F64.val 0⟩, ⟨F64.val 1, F64.val 0⟩, ⟨F64.val 0, F64.val 1⟩] =
      Except.ok ⟨[⟨F64.val 0, F64.val 0⟩, ⟨F64.val 1, F64.val 0⟩, ⟨F64.val 0, F64.val 1⟩]⟩ :=
  (claim4_tryFrom_min_three _).1.mpr (by decide)

/-- Claim C5: `lloyd_relaxation` performs exactly one relaxation pass — it
runs the Voronoi driver once, extracts each face's polygon via
`make_polygons`, and returns the per-face centroids, so the output has one
point per input point, the i-th output being the centroid of the i-th input
site's face polygon. The driver and DCEL are modelled from the spec (their
sources are not given); see `voronoi` and `make_polygons`. -/
theorem claim5_lloyd_one_pass (pts : List Point) (boxsize : Cell) :
    lloyd_relaxation pts boxsize =
      (make_polygons (voronoi pts boxsize)).map polygon_centroid ∧
    (lloyd_relaxation pts boxsize).length = pts.length ∧
    ∀ i, i < pts.length →
      (lloyd_relaxation pts boxsize).getD i ⟨F64.val 0, F64.val 0⟩ =
        polygon_centroid
          (voronoiFacePolygon pts boxsize (pts.getD i ⟨F64.val 0, F64.val 0⟩)) := by
  refine ⟨rfl, by simp [lloyd_relaxation, make_polygons, voronoi], fun i hi => ?_⟩
  have h1 : i < (lloyd_relaxation pts boxsize).length := by
    simpa [lloyd_relaxation, make_polygons, voronoi] using hi
  rw [List.getD_eq_getElem _ _ h1, List.getD_eq_getElem _ _ hi]
  simp [lloyd_relaxation, make_polygons, voronoi]

/-- Witness for C5 at a concrete input: a single site in the unit-4 box. -/
theorem claim5_witness :
    lloyd_relaxation [⟨F64.val 1, F64.val 1⟩] (Cell.new (F64.val 4)) =
      (make_polygons (voronoi [⟨F64.val 1, F64.val 1⟩] (Cell.new (F64.val 4)))).map
        polygon_centroid ∧
    (lloyd_relaxation [⟨F64.val 1, F64.val 1⟩] (Cell.new (F64.val 4))).getD 0
        ⟨F64.val 0, F64.val 0⟩ =
      polygon_centroid
        (voronoiFacePolygon [⟨F64.val 1, F64.val 1⟩] (Cell.new (F64.val 4))
          ⟨F64.val 1, F64.val 1⟩) :=
  ⟨(claim5_lloyd_one_pass _ _).1, (claim5_lloyd_one_pass _ _).2.2 0 (by decide)⟩

/-- Claim C6: for a non-empty vertex list, `polygon_centroid` returns the
arithmetic mean of the vertices — the componentwise sum scaled by `1/len` —
and is not area-weighted. -/
theorem claim6_centroid_is_vertex_mean (pts : List Point) (h : pts ≠ []) :
    polygon_centroid pts = centroidSpec pts := by
  unfold polygon_centroid centroidSpec sumF
  rw [foldl_add_components]
  rfl

/-- Witness for C6 at a concrete input. -/
theorem claim6_witness :
    polygon_centroid [⟨F64.val 1, F64.val 2⟩, ⟨F64.val 3, F64.val 4⟩] =
      centroidSpec [⟨F64.val 1, F64.val 2⟩, ⟨F64.val 3, F64.val 4⟩] :=
  claim6_centroid_is_vertex_mean _ (List.cons_ne_nil _ _)

/-- Claim C7: `Cell::area` returns the unsigned polygon area: the absolute
value of the shoelace sum over the cyclically ordered boundary vertices,
halved. -/
theorem claim7_area_is_shoelace (c : Cell) : c.area = shoelaceSpec c.boundary := by
  unfold Cell.area shoelaceSpec
  rw [sides_eq_range c, List.map_map]
  rfl

/-- Claim C8: `Cell::new(b)` constructs exactly the four ordered vertices
`(0,0), (b,0), (b,b), (0,b)` of the axis-aligned square `[0,b] x [0,b]`. -/
theorem claim8_new_is_square (b : F64) :
    (Cell.new b).boundary =
      [⟨F64.val 0, F64.val 0⟩, ⟨b, F64.val 0⟩, ⟨b, b⟩, ⟨F64.val 0, b⟩] :=
  rfl

/-- Claim C9: `polygon_centroid` on the empty list does not panic and returns
`(NaN, NaN)`: the zero sum is scaled by `1.0 / 0.0 = +inf`, and `0.0 * +inf`
is NaN under IEEE-754 semantics. -/
theorem claim9_centroid_empty_nan :
    polygon_centroid [] = ⟨F64.nan, F64.nan⟩ ∧
    (F64.val 1).div (F64.val 0) = F64.pinf ∧
    (F64.val 0).mul F64.pinf = F64.nan :=
  ⟨by with_unfolding_all rfl, by with_unfolding_all rfl, by with_unfolding_all rfl⟩

end Voronoi
